import Mathlib

/-!
# Verification of the roz hook decision engine

A shallow embedding of the core of the `roz` quality-gate controller
(`src/core/hooks.rs`, `src/core/circuit_breaker.rs`, `src/core/state.rs`,
`src/template.rs`, `src/cli/decide.rs`), together with theorems settling the
spec claims about it.

Modelling conventions:
* `chrono::DateTime<Utc>` timestamps are modelled as `Int` (seconds on an
  abstract UTC timeline; only ordering and second-granularity arithmetic are
  used by the code).  `chrono::Duration::hours 1 = 3600`, `seconds 5 = 5`.
* Rust `u32`/`u64`/`usize` are modelled as `Nat`.  Where the source can
  underflow (`usize` subtraction in `add_trace_event`) the model returns
  `Option` with `none` standing for the arithmetic fault / panic.  Where a
  claim quantifies over counters, `< 2^32` side conditions keep the `Nat`
  model exactly faithful to `u32`.
* `serde_json::Value` is modelled by `Json`; Rust strings inside JSON values
  are lists of unicode scalar values (`List Char`), so that byte lengths and
  UTF-8 character boundaries (which the truncation code slices at) are
  represented exactly.
* The session store is abstracted: handlers take the loaded session (or
  `none`) and return the verdict together with the state they persist.
  Storage I/O errors (which the handlers turn into fail-open verdicts) and
  stderr logging are outside the model.
* `Uuid::new_v4` / `Utc::now` inside a handler are passed in as explicit
  `fresh_id` / `now` parameters; `SystemTime` nanoseconds used by
  `weighted_random` is the `now_nanos` parameter.
* Block/deny message rendering (template file I/O, `format!` texts) is out of
  scope per the spec; handlers return the verdict and the persisted state.
-/

namespace Roz

/-- Timestamps: `chrono::DateTime<Utc>` as an integer number of seconds. -/
abbrev Time := Int

/-! ## JSON values (`serde_json::Value`) -/

/-- Model of `serde_json::Value`.  Strings carry their unicode scalar values
so byte lengths and char boundaries are exact.  Object entries are kept in
iteration order as an association list. -/
inductive Json where
  | null
  | jbool (b : Bool)
  | jnum (n : Int)
  | jstr (s : List Char)
  | jarr (elems : List Json)
  | jobj (entries : List (String × Json))

/-- UTF-8 byte width of a unicode scalar value, as Rust `char::len_utf8`. -/
def utf8Width (c : Char) : Nat :=
  if c.toNat < 0x80 then 1
  else if c.toNat < 0x800 then 2
  else if c.toNat < 0x10000 then 3
  else 4

/-- Byte length of a Rust `String` (`str::len`), i.e. the sum of the UTF-8
widths of its chars. -/
def byteLen (s : List Char) : Nat :=
  (s.map utf8Width).sum

/-- Number of bytes `serde_json` emits for one char inside a JSON string
literal: `"` and `\` are escaped to two bytes, control chars use the short
escapes (`\n`, `\t`, `\r`, `\b`, `\f`) or a six-byte `\uXXXX` escape, and
everything else is raw UTF-8. -/
def jsonEscLen (c : Char) : Nat :=
  if c.toNat = 34 ∨ c.toNat = 92 then 2
  else if c.toNat < 0x20 then
    if c.toNat = 8 ∨ c.toNat = 9 ∨ c.toNat = 10 ∨ c.toNat = 12 ∨ c.toNat = 13 then 2 else 6
  else utf8Width c

/-- Byte length of a JSON string literal (quotes plus escaped content). -/
def jsonStrLen (s : List Char) : Nat :=
  2 + (s.map jsonEscLen).sum

mutual

/-- Byte length of the compact `serde_json::to_string` serialization. -/
def serLen : Json → Nat
  | .null => 4
  | .jbool true => 4
  | .jbool false => 5
  | .jnum n => (toString n).length
  | .jstr s => jsonStrLen s
  | .jarr elems => 2 + serLenList elems + (elems.length - 1)
  | .jobj entries => 2 + serLenEntries entries + (entries.length - 1)

/-- Sum of the serialized lengths of array elements. -/
def serLenList : List Json → Nat
  | [] => 0
  | x :: xs => serLen x + serLenList xs

/-- Sum of the serialized lengths of object entries (key literal, colon,
value). -/
def serLenEntries : List (String × Json) → Nat
  | [] => 0
  | (k, v) :: xs => jsonStrLen k.toList + 1 + serLen v + serLenEntries xs

end

/-- Look up a key in a JSON object (`Value::get` on an object, `None`
otherwise). -/
def Json.get : Json → String → Option Json
  | .jobj entries, k => (entries.find? fun kv => kv.1 = k).map Prod.snd
  | _, _ => none

/-! ## State model (`src/core/state.rs`) -/

/-- `Decision` — the review verdict recorded on a session. -/
inductive Decision where
  | pending
  | complete (summary : String) (second_opinions : Option String)
  | issues (summary : String) (message_to_agent : Option String)
deriving DecidableEq, Repr

/-- `DecisionRecord` — one entry of `decision_history`. -/
structure DecisionRecord where
  decision : Decision
  timestamp : Time
deriving DecidableEq, Repr

/-- `AttemptOutcome` for a review attempt. -/
inductive AttemptOutcome where
  | pending
  | success (decision_type : String) (blocks_needed : Nat)
  | notSpawned
  | noDecision
  | badSessionId
deriving DecidableEq, Repr

/-- `ReviewAttempt` — one block cycle's record. -/
structure ReviewAttempt where
  template_id : String
  timestamp : Time
  outcome : AttemptOutcome
deriving DecidableEq, Repr

/-- `TruncatedInput` — a tool input, possibly truncated. -/
structure TruncatedInput where
  value : Json
  truncated : Bool
  original_hash : Option String
  original_size : Option Nat

/-- `GateTrigger` — context recorded when a pre-tool-use gate fires. -/
structure GateTrigger where
  tool_name : String
  tool_input : TruncatedInput
  triggered_at : Time
  pattern_matched : String

/-- `EventType` of a trace event. -/
inductive EventType where
  | sessionStart
  | promptReceived
  | gateBlocked
  | gateAllowed
  | toolCompleted
  | stopHookCalled
  | rozDecision
  | traceCompacted
  | sessionEnd
deriving DecidableEq, Repr

/-- `TraceEvent` — one entry of the session trace. -/
structure TraceEvent where
  id : String
  timestamp : Time
  event_type : EventType
  payload : Json

/-- `ReviewState` — the review sub-record of a session. -/
structure ReviewState where
  enabled : Bool
  decision : Decision
  decision_history : List DecisionRecord
  user_prompts : List String
  gate_trigger : Option GateTrigger
  gate_approved_at : Option Time
  last_prompt_at : Option Time
  review_started_at : Option Time
  block_count : Nat
  circuit_breaker_tripped : Bool
  attempts : List ReviewAttempt

/-- `ReviewState::default()` — everything zero / empty / `Pending`. -/
def ReviewState.init : ReviewState where
  enabled := false
  decision := .pending
  decision_history := []
  user_prompts := []
  gate_trigger := none
  gate_approved_at := none
  last_prompt_at := none
  review_started_at := none
  block_count := 0
  circuit_breaker_tripped := false
  attempts := []

/-- `SessionState` — the durable per-session record. -/
structure SessionState where
  session_id : String
  review : ReviewState
  trace : List TraceEvent
  created_at : Time
  updated_at : Time

/-- `SessionState::new` (the `Utc::now()` call is the `now` parameter). -/
def SessionState.new (session_id : String) (now : Time) : SessionState where
  session_id := session_id
  review := ReviewState.init
  trace := []
  created_at := now
  updated_at := now

/-! ## Configuration (`src/config.rs`) -/

/-- `CircuitBreakerConfig`. -/
structure CircuitBreakerConfig where
  max_blocks : Nat
  cooldown_seconds : Nat
deriving DecidableEq, Repr

/-- `ApprovalScope` for gates. -/
inductive ApprovalScope where
  | session
  | prompt
  | tool
deriving DecidableEq, Repr

/-- `GatesConfig`. -/
structure GatesConfig where
  tools : List String
  approval_scope : ApprovalScope
  approval_ttl_seconds : Option Nat
deriving DecidableEq, Repr

/-- `ReviewConfig` (only the `gates` field is consulted by the embedded
handlers; `mode` is used elsewhere). -/
structure ReviewConfig where
  gates : GatesConfig
deriving DecidableEq, Repr

/-- `TemplateConfig`.  The `HashMap<String, u32>` of weights is modelled as
an association list in its (hash-defined) iteration order. -/
structure TemplateConfig where
  active : String
  weights : List (String × Nat)
deriving DecidableEq, Repr

/-- `TraceConfig`. -/
structure TraceConfig where
  max_events : Nat
deriving DecidableEq, Repr

/-- `Config` (the fields the embedded core reads). -/
structure Config where
  review : ReviewConfig
  circuit_breaker : CircuitBreakerConfig
  templates : TemplateConfig
  trace : TraceConfig
deriving DecidableEq, Repr

/-- `Config::default()`: `max_blocks = 3`, `cooldown = 300`,
`max_events = 500`, no gates, prompt scope, active template `default` with
weight 100. -/
def defaultConfig : Config where
  review := { gates := { tools := [], approval_scope := .prompt, approval_ttl_seconds := none } }
  circuit_breaker := { max_blocks := 3, cooldown_seconds := 300 }
  templates := { active := "default", weights := [("default", 100)] }
  trace := { max_events := 500 }

/-! ## Circuit breaker (`src/core/circuit_breaker.rs`) -/

/-- `circuit_breaker::should_trip`: already tripped, or
`block_count >= max_blocks`. -/
def should_trip (state : SessionState) (config : CircuitBreakerConfig) : Bool :=
  state.review.circuit_breaker_tripped || decide (config.max_blocks ≤ state.review.block_count)

/-- `circuit_breaker::trip`: sets `circuit_breaker_tripped = true` and
`enabled = false` (the stderr warning is outside the model). -/
def trip (state : SessionState) : SessionState :=
  { state with review := { state.review with circuit_breaker_tripped := true, enabled := false } }

/-! ## Template selection (`src/template.rs`) -/

/-- The accumulation loop of `weighted_random`: walk the entries adding
weights, returning the first key whose running sum exceeds the roll. -/
def weightedWalk (roll : Nat) : Nat → List (String × Nat) → Option String
  | _, [] => none
  | cumulative, (template_id, weight) :: rest =>
    if roll < cumulative + weight then some template_id
    else weightedWalk roll (cumulative + weight) rest

/-- `template::weighted_random`.  The time-derived draw
(`SystemTime` nanoseconds since the epoch) is the `now_nanos` parameter. -/
def weighted_random (weights : List (String × Nat)) (now_nanos : Nat) : String :=
  if weights.isEmpty then "default"
  else
    let total := (weights.map Prod.snd).sum
    if total = 0 then ((weights.head?.map Prod.fst).getD "default")
    else
      let roll := now_nanos % total
      (weightedWalk roll 0 weights).getD ((weights.head?.map Prod.fst).getD "default")

/-- `template::select_template`. -/
def select_template (config : TemplateConfig) (now_nanos : Nat) : String :=
  if config.active = "random" then weighted_random config.weights now_nanos
  else config.active

/-! ## Stop hook (`handle_stop_with_config` in `src/core/hooks.rs`) -/

/-- `crate::hooks::HookDecision`: the verdict of a stop-style hook. -/
inductive HookDecision where
  | approve
  | block
deriving DecidableEq, Repr

/-- `record_review_attempt`: push a `Pending` attempt for the selected
template. -/
def record_review_attempt (state : SessionState) (template_id : String) (now : Time) :
    SessionState :=
  { state with review := { state.review with
      attempts := state.review.attempts ++ [⟨template_id, now, .pending⟩] } }

/-- `handle_stop_with_config`.  `existing` is the store's answer for the
session id; the returned `Option SessionState` is the state the handler
persists (`none` when it returns before any `put_session`).  The `trace.push`
for `stop_hook_called` is a direct push in the source — it does not go
through `add_trace_event`. -/
def handle_stop_with_config (existing : Option SessionState) (config : Config)
    (now : Time) (now_nanos : Nat) (fresh_id : String) :
    HookDecision × Option SessionState :=
  match existing with
  | none => (.approve, none)
  | some s0 =>
    let s1 : SessionState :=
      { s0 with trace := s0.trace ++ [⟨fresh_id, now, .stopHookCalled, .jobj []⟩] }
    if ¬ s1.review.enabled then
      (.approve, some { s1 with updated_at := now })
    else if should_trip s1 config.circuit_breaker then
      (.approve, some { trip s1 with updated_at := now })
    else
      match s1.review.decision with
      | .pending =>
        let s2 : SessionState :=
          { s1 with review := { s1.review with block_count := s1.review.block_count + 1 } }
        if should_trip s2 config.circuit_breaker then
          (.approve, some { trip s2 with updated_at := now })
        else
          let template_id := select_template config.templates now_nanos
          let s3 := record_review_attempt s2 template_id now
          (.block, some { s3 with updated_at := now })
      | .complete _ _ =>
        (.approve, some { s1 with updated_at := now })
      | .issues _ _ =>
        let s2 : SessionState :=
          { s1 with review := { s1.review with block_count := s1.review.block_count + 1 } }
        if should_trip s2 config.circuit_breaker then
          (.approve, some { trip s2 with updated_at := now })
        else
          let template_id := select_template config.templates now_nanos
          let s3 := record_review_attempt s2 template_id now
          (.block, some { s3 with updated_at := now })

/-! ## Hook input (`src/hooks/input.rs`) -/

/-- `HookInput` — the JSON record read from stdin. -/
structure HookInput where
  session_id : String
  cwd : String
  prompt : Option String
  tool_name : Option String
  tool_input : Option Json
  tool_response : Option Json
  source : Option String
  subagent_type : Option String
  subagent_prompt : Option String
  subagent_started_at : Option Time

/-! ## Subagent-stop hook (`handle_subagent_stop` in `src/core/hooks.rs`) -/

/-- ASCII whitespace, the `\s` class restricted to the characters occurring
here (the embedded prompts are ASCII). -/
def isWsChar (c : Char) : Bool :=
  c = ' ' || c = '\t' || c = '\n' || c = '\r' || c.toNat = 11 || c.toNat = 12

/-- A character of the `[a-zA-Z0-9_-]` class. -/
def sessionIdChar (c : Char) : Bool :=
  c.isAlphanum || c = '_' || c = '-'

/-- Attempt the `[=:]\s*([a-zA-Z0-9_-]+)` part of the pattern on the text
following a `SESSION_ID` occurrence. -/
def sessionIdCapture (cs : List Char) : Option String :=
  match cs with
  | [] => none
  | c :: rest =>
    if c = '=' || c = ':' then
      let cap := (rest.dropWhile isWsChar).takeWhile sessionIdChar
      if cap.isEmpty then none else some (String.mk cap)
    else none

/-- Leftmost match of `SESSION_ID[=:]\s*([a-zA-Z0-9_-]+)`: try each position
in order, as the regex engine does. -/
def extractAux : List Char → Option String
  | [] => none
  | c :: rest =>
    if "SESSION_ID".toList.isPrefixOf (c :: rest) then
      match sessionIdCapture ((c :: rest).drop 10) with
      | some s => some s
      | none => extractAux rest
    else extractAux rest

/-- `extract_session_id`: capture group 1 of the regex applied to the
subagent prompt, when present. -/
def extract_session_id (prompt : Option String) : Option String :=
  prompt.bind fun p => extractAux p.toList

/-- `handle_subagent_stop`.  The store is abstracted as `lookup`; the two
`Utc::now()` calls (fallback start and `subagent_ended`) are the single `now`
parameter; `Duration::hours 1 = 3600`, the clock-skew `buffer` is 5
seconds. -/
def handle_subagent_stop (input : HookInput) (lookup : String → Option SessionState)
    (now : Time) : HookDecision :=
  match input.subagent_type with
  | none => .approve
  | some t =>
    if t = "roz:roz" then
      match extract_session_id input.subagent_prompt with
      | none => .block
      | some session_id =>
        let subagent_started := input.subagent_started_at.getD (now - 3600)
        let subagent_ended := now
        match lookup session_id with
        | none => .approve
        | some state =>
          match state.review.decision with
          | .pending => .block
          | .complete _ _ | .issues _ _ =>
            let decision_time := state.updated_at
            if decision_time < subagent_started then .block
            else if decision_time > subagent_ended + 5 then .block
            else .approve
    else .approve

/-! ## Session-start and user-prompt hooks (`src/core/hooks.rs`) -/

/-- How serde serializes an optional string field inside a `json!` payload:
the string itself, or `null` when absent. -/
def jsonOfOptStr (s : Option String) : Json :=
  match s with
  | some s => .jstr s.toList
  | none => .null

/-- `handle_session_start`: a missing session is created with one
`session_start` trace event (a direct `trace.push`, no cap); an existing
session resumes untouched.  The `which`-based second-opinion probing only
enriches the approve output's context and is outside the model. -/
def handle_session_start (input : HookInput) (existing : Option SessionState) (now : Time)
    (fresh_id : String) : HookDecision × Option SessionState :=
  let state :=
    match existing with
    | some s => s
    | none =>
      let s := SessionState.new input.session_id now
      { s with trace := s.trace ++
          [(⟨fresh_id, now, .sessionStart,
             .jobj [("source", jsonOfOptStr input.source),
                    ("cwd", .jstr input.cwd.toList)]⟩ : TraceEvent)] }
  (.approve, some state)

/-- `handle_user_prompt`: always records `last_prompt_at`; when the prompt's
leading non-whitespace characters begin with `#roz`
(`prompt.trim_start().starts_with("#roz")`), enables review, stores the raw
prompt, resets the decision to `Pending`, and pushes a `prompt_received`
trace event directly (no cap).  Output is always approve. -/
def handle_user_prompt (input : HookInput) (existing : Option SessionState) (now : Time)
    (fresh_id : String) : HookDecision × Option SessionState :=
  let prompt := input.prompt.getD ""
  let state := existing.getD (SessionState.new input.session_id now)
  let state := { state with review := { state.review with last_prompt_at := some now } }
  let state :=
    if "#roz".toList.isPrefixOf (prompt.toList.dropWhile isWsChar) then
      { state with
        review := { state.review with
          enabled := true
          user_prompts := state.review.user_prompts ++ [prompt]
          decision := .pending }
        trace := state.trace ++
          [(⟨fresh_id, now, .promptReceived,
             .jobj [("prompt", .jstr prompt.toList)]⟩ : TraceEvent)] }
    else state
  (.approve, some { state with updated_at := now })

/-! ## Tool-input truncation (`src/core/state.rs`) -/

/-- Rust `&s[..n]`: the chars making up the first `n` bytes, `some` only when
`n` lands exactly on a character boundary (and within the string); otherwise
the slice panics, reported as `none`. -/
def takeBytes : List Char → Nat → Option (List Char)
  | _, 0 => some []
  | [], _ + 1 => none
  | c :: rest, n + 1 =>
    if utf8Width c ≤ n + 1 then (takeBytes rest (n + 1 - utf8Width c)).map (c :: ·)
    else none

/-- The `"... [truncated, N bytes total]"` suffix appended to a truncated
string. -/
def truncMarker (total : Nat) : List Char :=
  (s!"... [truncated, {total} bytes total]").toList

/-- The `"... [K more items]"` marker appended to a truncated array. -/
def moreItemsMarker (k : Nat) : List Char :=
  (s!"... [{k} more items]").toList

mutual

/-- `truncate_json_value`: recursively fit a value into a byte budget.  Long
strings are sliced at `min budget 200` **bytes** (`&s[..truncate_at]`, which
panics off a char boundary — reported as `none`); objects split the budget
evenly across keys; arrays longer than 10 keep 10 truncated elements plus a
marker; everything else is cloned unchanged. -/
def truncate_json_value : Json → Nat → Option Json
  | .jstr s, budget =>
    if byteLen s > budget then
      match takeBytes s (min budget 200) with
      | some pre => some (.jstr (pre ++ truncMarker (byteLen s)))
      | none => none
    else some (.jstr s)
  | .jobj entries, budget =>
    (truncEntries entries (budget / max entries.length 1)).map .jobj
  | .jarr arr, budget =>
    if arr.length > 10 then
      (truncFirst 10 arr (budget / 10)).map fun l =>
        .jarr (l ++ [.jstr (moreItemsMarker (arr.length - 10))])
    else some (.jarr arr)
  | v, _ => some v

/-- Truncate the first `n` elements of an array (the rest are dropped by
`iter().take(10)`). -/
def truncFirst : Nat → List Json → Nat → Option (List Json)
  | 0, _, _ => some []
  | _ + 1, [], _ => some []
  | n + 1, x :: xs, budget =>
    match truncate_json_value x budget with
    | none => none
    | some y => (truncFirst n xs budget).map (y :: ·)

/-- Truncate every value of an object under a per-key budget. -/
def truncEntries : List (String × Json) → Nat → Option (List (String × Json))
  | [], _ => some []
  | (k, v) :: xs, budget =>
    match truncate_json_value v budget with
    | none => none
    | some w => (truncEntries xs budget).map ((k, w) :: ·)

end

/-- `TruncatedInput::from_value` (`MAX_SIZE = 10 KiB`).  The SHA-256 of the
full serialization is abstracted as the `hash` parameter (its value is never
inspected by the core); `none` reports the string-slice panic inside
`truncate_json_value`. -/
def TruncatedInput.from_value (hash : Json → String) (input : Json) : Option TruncatedInput :=
  let serialized_len := serLen input
  if serialized_len ≤ 10 * 1024 then
    some { value := input, truncated := false, original_hash := none, original_size := none }
  else
    match truncate_json_value input (10 * 1024) with
    | some truncated_value =>
      some { value := truncated_value, truncated := true,
             original_hash := some (hash input), original_size := some serialized_len }
    | none => none

/-! ## Gate approval (`is_gate_approved` in `src/core/hooks.rs`) -/

/-- The TTL check of `is_gate_approved`: with `approval_ttl_seconds = Some
ttl`, the approval has expired when `now > approved_at + ttl`, where the
`u64 → i64` conversion saturates at `i64::MAX`
(`i64::try_from(ttl).unwrap_or(i64::MAX)`). -/
def approval_expired (gates : GatesConfig) (approved_at now : Time) : Bool :=
  match gates.approval_ttl_seconds with
  | some ttl_secs => decide (now > approved_at + min (ttl_secs : Int) (2 ^ 63 - 1))
  | none => false

/-- `is_gate_approved`: requires a `Complete` decision and a recorded,
unexpired `gate_approved_at`; then branches on the approval scope.  Under
`Prompt` scope, a prompt that arrived after `review_started_at` is replaced
by `review_started_at` itself. -/
def is_gate_approved (state : SessionState) (gates : GatesConfig) (now : Time) : Bool :=
  match state.review.decision with
  | .complete _ _ =>
    match state.review.gate_approved_at with
    | none => false
    | some approved_at =>
      if approval_expired gates approved_at now then false
      else
        match gates.approval_scope with
        | .session => true
        | .prompt =>
          let effective_prompt_at :=
            match state.review.last_prompt_at, state.review.review_started_at with
            | some prompt, some review_start =>
              if prompt > review_start then some review_start else some prompt
            | prompt_at, _ => prompt_at
          match effective_prompt_at with
          | some prompt => decide (approved_at > prompt)
          | none => true
        | .tool => false
  | _ => false

/-- The claim's (spec §4.8) effective prompt time, written from the spec's
words: `max(last_prompt_at, review_started_at)` iff
`last_prompt_at > review_started_at`, otherwise `last_prompt_at`; compared
with the embedded `is_gate_approved` above. -/
def claimEffectivePromptAt (last_prompt_at review_started_at : Option Time) : Option Time :=
  match last_prompt_at, review_started_at with
  | some p, some r => if p > r then some (max p r) else some p
  | p, _ => p

/-! ## Trace compaction (`add_trace_event` in `src/core/hooks.rs`) -/

/-- `add_trace_event`: push the event, then if the trace exceeds
`max_events`, keep the first `keep_start = min 10 (max_events / 2)` events,
one synthesized `trace_compacted` marker, and the last
`keep_end = max_events - keep_start - 1` events.  `keep_end` is computed by
`usize` subtraction in the source; when `max_events < keep_start + 1`
(exactly `max_events = 0`) that subtraction underflows — a panic under
overflow checks — which the model reports as `none`.  The marker's
`generate_id()` / `Utc::now()` calls are the `marker_id` / `now`
parameters. -/
def add_trace_event (trace : List TraceEvent) (event : TraceEvent) (max_events : Nat)
    (marker_id : String) (now : Time) : Option (List TraceEvent) :=
  let trace := trace ++ [event]
  if trace.length ≤ max_events then some trace
  else
    let keep_start := min 10 (max_events / 2)
    if max_events < keep_start + 1 then none
    else
      let keep_end := max_events - keep_start - 1
      let total := trace.length
      let dropped := total - max_events
      let marker : TraceEvent :=
        ⟨marker_id, now, .traceCompacted,
          .jobj [("dropped_events", .jnum dropped), ("kept_start", .jnum keep_start),
                 ("kept_end", .jnum keep_end)]⟩
      let rest := trace.drop keep_start
      let tail := if keep_end < rest.length then rest.drop (rest.length - keep_end) else rest
      some (trace.take keep_start ++ marker :: tail)

/-! ## Bash command normalization (`src/core/hooks.rs`)

Commands are modelled as `List Char`.  The source records byte positions of
pipe characters and slices at them; since `|` is one byte and a slice at a
pipe position always falls on a char boundary, taking everything after the
pipe **character** yields the same decomposition, so positions here are char
indices.  `str::trim` / `char::is_whitespace` / `char::is_alphanumeric` are
modelled on their ASCII subsets (the gated commands are ASCII). -/

/-- `str::trim`: drop whitespace from both ends. -/
def trimChars (cs : List Char) : List Char :=
  ((cs.dropWhile isWsChar).reverse.dropWhile isWsChar).reverse

/-- `str::strip_prefix` for strings-as-lists. -/
def stripPre (pre cs : List Char) : Option (List Char) :=
  if pre.isPrefixOf cs then some (cs.drop pre.length) else none

/-- The scan loop of `find_last_unquoted_pipe`, tracking quote state, the
previous character (for `\\` escapes and `||`) and the last recorded pipe
position. -/
def find_last_unquoted_pipe_go (cs : List Char) (i : Nat) (in_single_quote in_double_quote : Bool)
    (prev_char : Option Char) (last_pipe : Option Nat) : Option Nat :=
  match cs with
  | [] => last_pipe
  | c :: rest =>
    if c = Char.ofNat 39 ∧ in_double_quote = false ∧ prev_char ≠ some (Char.ofNat 92) then
      find_last_unquoted_pipe_go rest (i + 1) (!in_single_quote) in_double_quote (some c) last_pipe
    else if c = Char.ofNat 34 ∧ in_single_quote = false ∧ prev_char ≠ some (Char.ofNat 92) then
      find_last_unquoted_pipe_go rest (i + 1) in_single_quote (!in_double_quote) (some c) last_pipe
    else if c = '|' ∧ in_single_quote = false ∧ in_double_quote = false then
      if prev_char ≠ some '|' then
        find_last_unquoted_pipe_go rest (i + 1) in_single_quote in_double_quote (some c) (some i)
      else
        find_last_unquoted_pipe_go rest (i + 1) in_single_quote in_double_quote (some c) last_pipe
    else
      find_last_unquoted_pipe_go rest (i + 1) in_single_quote in_double_quote (some c) last_pipe

/-- `find_last_unquoted_pipe`. -/
def find_last_unquoted_pipe (cs : List Char) : Option Nat :=
  find_last_unquoted_pipe_go cs 0 false false none none

/-- Scan for a closing double quote (escapes respected); `some` is the suffix
after it. -/
def afterClosingDq : List Char → Option Char → Option (List Char)
  | [], _ => none
  | c :: rest, prev =>
    if c = Char.ofNat 34 ∧ prev ≠ some (Char.ofNat 92) then some rest
    else afterClosingDq rest (some c)

/-- Suffix after the first occurrence of `target` (no escapes). -/
def afterCharFirst (target : Char) : List Char → Option (List Char)
  | [] => none
  | c :: rest => if c = target then some rest else afterCharFirst target rest

/-- Suffix of the list from its first whitespace character on (empty when
none), as `&s[space..]` / `""`. -/
def dropUntilWs : List Char → List Char
  | [] => []
  | c :: rest => if isWsChar c then c :: rest else dropUntilWs rest

/-- `skip_value_str`: skip a double-quoted (escapes respected),
single-quoted, or whitespace-delimited value; unclosed quotes return the
trimmed-start input unchanged. -/
def skip_value_str (s : List Char) : List Char :=
  let t := s.dropWhile isWsChar
  match t with
  | c :: rest =>
    if c = Char.ofNat 34 then (afterClosingDq rest none).getD t
    else if c = Char.ofNat 39 then (afterCharFirst (Char.ofNat 39) rest).getD t
    else dropUntilWs t
  | [] => []

/-- The loop of `skip_env_command`: repeatedly skip `NAME=value` pairs whose
name is alphanumeric/underscore.  Each iteration consumes at least the `=`,
so `length + 1` fuel makes the model total while matching the source
loop. -/
def skipEnvGo : Nat → List Char → List Char
  | 0, rest => rest
  | fuel + 1, rest =>
    match rest.findIdx? (fun c => c == '=') with
    | none => rest
    | some eq_pos =>
      if (rest.take eq_pos).all (fun c => c.isAlphanum || c == '_') then
        skipEnvGo fuel (trimChars (skip_value_str (rest.drop (eq_pos + 1))))
      else rest

/-- `skip_env_command` (applied to the text after an `env ` prefix). -/
def skip_env_command (cmd : List Char) : List Char :=
  skipEnvGo (cmd.length + 1) (trimChars cmd)

/-- The post-prefix processing of `extract_nested_shell_command`: trim, then
strip one level of surrounding quotes via `rest.get(1..rest.len()-1)` (which
is `None` on a lone quote). -/
def nestedShellFrom (stripped : List Char) : Option (List Char) :=
  let rest := trimChars stripped
  match rest with
  | c :: _ =>
    if c = Char.ofNat 34 ∨ c = Char.ofNat 39 then
      if 2 ≤ rest.length then some ((rest.drop 1).take (rest.length - 2)) else none
    else some rest
  | [] => some rest

/-- `extract_nested_shell_command`: try the four shell prefixes in order. -/
def extract_nested_shell_command (cmd : List Char) : Option (List Char) :=
  match stripPre "bash -c ".toList cmd with
  | some stripped => nestedShellFrom stripped
  | none =>
    match stripPre "sh -c ".toList cmd with
    | some stripped => nestedShellFrom stripped
    | none =>
      match stripPre "/bin/bash -c ".toList cmd with
      | some stripped => nestedShellFrom stripped
      | none =>
        match stripPre "/bin/sh -c ".toList cmd with
        | some stripped => nestedShellFrom stripped
        | none => none

/-- The loop of `strip_env_vars`: repeatedly strip leading `NAME=value`
tokens (fuel as in `skipEnvGo`). -/
def stripEnvVarsGo : Nat → List Char → List Char
  | 0, rest => rest
  | fuel + 1, rest =>
    let word_end := (rest.findIdx? (fun c => !(c.isAlphanum || c == '_'))).getD rest.length
    if word_end = 0 then rest
    else
      match rest.drop word_end with
      | c :: after =>
        if c = '=' then stripEnvVarsGo fuel (trimChars (skip_value_str after))
        else rest
      | [] => rest

/-- `strip_env_vars`. -/
def strip_env_vars (cmd : List Char) : List Char :=
  stripEnvVarsGo (cmd.length + 1) (trimChars cmd)

/-- `normalize_bash_command`: take the sink of the last unquoted pipe, strip
an `env` prefix, unwrap one nested shell, strip leading assignments, and keep
the first 80 chars. -/
def normalize_bash_command (cmd : List Char) : List Char :=
  let cmd := trimChars cmd
  let cmd :=
    match find_last_unquoted_pipe cmd with
    | some last_pipe => trimChars (cmd.drop (last_pipe + 1))
    | none => cmd
  let cmd :=
    match stripPre "env ".toList cmd with
    | some stripped => skip_env_command stripped
    | none => cmd
  let cmd := (extract_nested_shell_command cmd).getD cmd
  let cmd := strip_env_vars cmd
  cmd.take 80

/-! ## Pre-tool-use hook (`handle_pre_tool_use` in `src/core/hooks.rs`) -/

/-- `format_tool_key`: `Bash` commands are normalized and prefixed with
`Bash:`; every other tool keys on its name (`"unknown"` when absent). -/
def format_tool_key (tool_name : Option String) (tool_input : Option Json) : List Char :=
  let name := tool_name.getD "unknown"
  if name = "Bash" then
    match tool_input with
    | some input =>
      match input.get "command" with
      | some (.jstr cmd) => "Bash:".toList ++ normalize_bash_command cmd
      | _ => name.toList
    | none => name.toList
  else name.toList

/-- Recursive matcher for the `*` / `?` / literal subset of `glob::Pattern`
(the subset the configured patterns use; the key strings contain no path
separators or bracket classes, and the patterns compile, so the
literal-prefix fallback is never taken).  Every recursive call shrinks
`p.length + s.length`, so fuel exceeding that sum never runs out. -/
def globMatchGo (fuel : Nat) (p s : List Char) : Bool :=
  match fuel with
  | 0 => false
  | fuel + 1 =>
    match p, s with
    | [], [] => true
    | c :: ps, cs =>
      if c = '*' then
        globMatchGo fuel ps cs ||
          (match cs with
           | [] => false
           | _ :: cs' => globMatchGo fuel (c :: ps) cs')
      else
        match cs with
        | [] => false
        | d :: cs' => (c == '?' || c == d) && globMatchGo fuel ps cs'
    | [], _ :: _ => false

/-- `glob_match` on a pattern from the config. -/
def glob_match (pattern : String) (tool_key : List Char) : Bool :=
  globMatchGo (pattern.length + tool_key.length + 1) pattern.toList tool_key

/-- `find_matching_pattern`: first configured pattern matching the key. -/
def find_matching_pattern (tool_key : List Char) (patterns : List String) : Option String :=
  patterns.find? fun p => glob_match p tool_key

/-- `GatesConfig::is_enabled`. -/
def GatesConfig.is_enabled (g : GatesConfig) : Bool :=
  !g.tools.isEmpty

/-- `trace_gate_allowed`: append a `gate_allowed` event through
`add_trace_event`. -/
def trace_gate_allowed (state : SessionState) (tool : List Char) (reason : String)
    (max_events : Nat) (fresh_id marker_id : String) (now : Time) : Option SessionState :=
  (add_trace_event state.trace
      ⟨fresh_id, now, .gateAllowed, .jobj [("tool", .jstr tool), ("reason", .jstr reason.toList)]⟩
      max_events marker_id now).map
    fun tr => { state with trace := tr }

/-- `PermissionDecision` of the pre-tool-use output. -/
inductive PermissionDecision where
  | allow
  | deny
  | ask
deriving DecidableEq, Repr

/-- `handle_pre_tool_use`.  `existing` abstracts the store lookup; the result
is the permission decision together with the state persisted (if any);
`none` propagates a panic inside truncation or compaction.  Message
rendering is outside the model. -/
def handle_pre_tool_use (input : HookInput) (config : Config)
    (existing : Option SessionState) (now : Time) (fresh_id marker_id : String)
    (hash : Json → String) : Option (PermissionDecision × Option SessionState) :=
  if config.review.gates.is_enabled = false then some (.allow, none)
  else
    let tool_key := format_tool_key input.tool_name input.tool_input
    match find_matching_pattern tool_key config.review.gates.tools with
    | none => some (.allow, none)
    | some matched_pattern =>
      let state := existing.getD (SessionState.new input.session_id now)
      if state.review.circuit_breaker_tripped then
        (trace_gate_allowed state tool_key "circuit_breaker" config.trace.max_events
            fresh_id marker_id now).map
          fun s => (.allow, some s)
      else if is_gate_approved state config.review.gates now then
        (trace_gate_allowed state tool_key "approved" config.trace.max_events
            fresh_id marker_id now).map
          fun s => (.allow, some s)
      else
        match TruncatedInput.from_value hash (input.tool_input.getD .null) with
        | none => none
        | some trunc =>
          let state :=
            { state with review := { state.review with
                enabled := true
                review_started_at := some now
                gate_trigger := some ⟨String.mk tool_key, trunc, now, matched_pattern⟩ } }
          match add_trace_event state.trace
              ⟨fresh_id, now, .gateBlocked,
                .jobj [("tool", .jstr tool_key), ("pattern", .jstr matched_pattern.toList)]⟩
              config.trace.max_events marker_id now with
          | none => none
          | some tr => some (.deny, some { state with trace := tr, updated_at := now })

/-! ## Example states used in concrete theorems -/

/-- A session with review enabled, `Pending` decision, untripped breaker and
the given block count. -/
def pendingSession (bc : Nat) : SessionState :=
  { SessionState.new "S" 0 with
    review := { ReviewState.init with enabled := true, decision := .pending, block_count := bc } }

/-- A session whose circuit breaker has tripped. -/
def trippedSession : SessionState :=
  { SessionState.new "S" 0 with
    review := { ReviewState.init with circuit_breaker_tripped := true } }

/-- A disabled fresh session (as created by the first hook reference). -/
def freshDisabledSession : SessionState := SessionState.new "S4" 0

/-- A config whose trace cap is zero. -/
def zeroTraceConfig : Config := { defaultConfig with trace := { max_events := 0 } }

/-- A sample trace event. -/
def sampleEvent : TraceEvent := ⟨"e0", 0, .promptReceived, .jobj []⟩

/-! ## Helper lemmas about compaction and the stop hook's trace push -/

/-- Successful `add_trace_event` leaves at most `max_events` events (requires
`max_events ≥ 1`; at zero the source underflows instead). -/
theorem add_trace_event_length_le
    (trace : List TraceEvent) (event : TraceEvent) (max_events : Nat)
    (marker_id : String) (now : Time) (out : List TraceEvent)
    (hme : 1 ≤ max_events)
    (h : add_trace_event trace event max_events marker_id now = some out) :
    out.length ≤ max_events := by
  simp only [add_trace_event] at h
  split at h
  next hle =>
    injection h with h
    subst h
    exact hle
  next hle =>
    split at h
    next hks => exact absurd h (by simp)
    next hks =>
      injection h with h
      subst h
      split <;>
        simp only [List.length_append, List.length_take, List.length_cons,
          List.length_drop, List.length_singleton] at * <;>
        omega

/-- Every branch of the stop hook that persists a state has pushed exactly one
`stop_hook_called` event onto the trace, with no cap applied. -/
theorem handle_stop_trace_push
    (s : SessionState) (config : Config) (now : Time) (now_nanos : Nat) (fresh_id : String) :
    ((handle_stop_with_config (some s) config now now_nanos fresh_id).2.map
        fun t => t.trace.length) = some (s.trace.length + 1) := by
  simp only [handle_stop_with_config]
  split
  · simp
  · split
    · simp [trip]
    · split
      · split
        · simp [trip]
        · simp [record_review_attempt]
      · simp
      · split
        · simp [trip]
        · simp [record_review_attempt]

/-! ## C8 — compaction at `max_events = 0` -/

/-- C8: with `max_events = 0` any trace append reaches the
`keep_end = max_events - keep_start - 1` computation with
`max_events = keep_start = 0`, so the `usize` subtraction underflows (a panic
under overflow checks) instead of compacting to an empty or single-marker
sequence; the model reports the arithmetic fault as `none`. -/
theorem add_trace_event_underflows_at_zero_max_events :
    add_trace_event [] sampleEvent 0 "m0" 0 = none := rfl

/-! ## C1 — stop hook on a pending, enabled session -/

/-- C1 (counterexample): the claim "decision = Pending, enabled = true and
`block_count < max_blocks` implies stop returns block" fails at
`block_count = max_blocks - 1 = 2` with the default config: the post-increment
breaker check trips and the hook approves. -/
theorem stop_pending_at_penultimate_block_approves :
    (pendingSession 2).review.decision = .pending ∧
    (pendingSession 2).review.enabled = true ∧
    (pendingSession 2).review.circuit_breaker_tripped = false ∧
    (pendingSession 2).review.block_count < defaultConfig.circuit_breaker.max_blocks ∧
    (handle_stop_with_config (some (pendingSession 2)) defaultConfig 0 0 "e1").1 =
      .approve := by
  refine ⟨rfl, rfl, rfl, by decide, ?_⟩
  rfl

/-- C1 (amended): for every session whose review state has
`decision = Pending`, `enabled = true`, an untripped breaker and
`block_count + 1 < max_blocks`, the stop hook returns the block verdict — the
breaker is checked both before and after the block-count increment, so the
strict bound must hold after the increment as well. -/
theorem stop_pending_blocks_when_strictly_below
    (s : SessionState) (config : Config) (now : Time) (now_nanos : Nat) (fresh_id : String)
    (hdec : s.review.decision = .pending)
    (hen : s.review.enabled = true)
    (htrip : s.review.circuit_breaker_tripped = false)
    (hbc : s.review.block_count + 1 < config.circuit_breaker.max_blocks) :
    (handle_stop_with_config (some s) config now now_nanos fresh_id).1 = .block := by
  have h1 : ¬ (config.circuit_breaker.max_blocks ≤ s.review.block_count) := by omega
  have h2 : ¬ (config.circuit_breaker.max_blocks ≤ s.review.block_count + 1) := by omega
  simp [handle_stop_with_config, should_trip, hdec, hen, htrip, h1, h2]

/-- C1 (witness): a fresh pending session with block count 0 under the default
config is blocked. -/
theorem stop_pending_blocks_when_strictly_below_witness :
    (handle_stop_with_config (some (pendingSession 0)) defaultConfig 0 0 "e1").1 = .block :=
  stop_pending_blocks_when_strictly_below (pendingSession 0) defaultConfig 0 0 "e1"
    rfl rfl rfl (by decide)

/-! ## C6 — tripped breaker forces approval; tripping disables review -/

/-- C6: every stop invocation on a session whose breaker has tripped returns
approve, and `trip` sets `circuit_breaker_tripped = true` and
`enabled = false`. -/
theorem tripped_breaker_stop_approves_and_trip_disables
    (s : SessionState) (config : Config) (now : Time) (now_nanos : Nat) (fresh_id : String)
    (h : s.review.circuit_breaker_tripped = true) :
    (handle_stop_with_config (some s) config now now_nanos fresh_id).1 = .approve ∧
    (trip s).review.circuit_breaker_tripped = true ∧
    (trip s).review.enabled = false := by
  refine ⟨?_, rfl, rfl⟩
  by_cases he : s.review.enabled = true
  · simp [handle_stop_with_config, should_trip, h, he]
  · simp [handle_stop_with_config, he]

/-- C6 (witness): an already-tripped session is approved by the stop hook, and
`trip` on it leaves the flags set. -/
theorem tripped_breaker_stop_approves_and_trip_disables_witness :
    (handle_stop_with_config (some trippedSession) defaultConfig 0 0 "e1").1 = .approve ∧
    (trip trippedSession).review.circuit_breaker_tripped = true ∧
    (trip trippedSession).review.enabled = false :=
  tripped_breaker_stop_approves_and_trip_disables trippedSession defaultConfig 0 0 "e1" rfl

/-! ## C3 — subagent-stop temporal window -/

/-- C3: when a `roz:roz` subagent stops with a prompt naming an existing
session whose decision is `Complete` or `Issues`, the handler blocks exactly
when `updated_at` lies before `subagent_started_at` (defaulting to
`now - 1 hour`) or after `now + 5 seconds`, and approves otherwise. -/
theorem subagent_stop_blocks_iff_outside_window
    (input : HookInput) (lookup : String → Option SessionState) (now : Time)
    (session_id : String) (state : SessionState)
    (ht : input.subagent_type = some "roz:roz")
    (he : extract_session_id input.subagent_prompt = some session_id)
    (hl : lookup session_id = some state)
    (hd : state.review.decision ≠ .pending) :
    (handle_subagent_stop input lookup now = .block ↔
      (state.updated_at < input.subagent_started_at.getD (now - 3600) ∨
       state.updated_at > now + 5)) ∧
    (handle_subagent_stop input lookup now = .approve ↔
      ¬ (state.updated_at < input.subagent_started_at.getD (now - 3600) ∨
         state.updated_at > now + 5)) := by
  rcases hdec : state.review.decision with _ | ⟨su, so⟩ | ⟨su, mo⟩
  · exact absurd hdec hd
  all_goals
    simp only [handle_subagent_stop, ht, he, hl, hdec, if_true]
    split_ifs with h1 h2
    · simp [h1]
    · simp [h1, h2]
    · simp [h1, h2]

/-- A reviewed session whose decision timestamp predates the reviewer's
window. -/
def staleDecisionSession : SessionState :=
  { SessionState.new "S5" 0 with
    review :=
      { ReviewState.init with
        enabled := true
        decision := .complete "done" none }
    updated_at := 50 }

/-- A subagent-stop input for the `roz:roz` reviewer of session `S5`, started
at time 100. -/
def subagentInput : HookInput where
  session_id := "main"
  cwd := "/tmp"
  prompt := none
  tool_name := none
  tool_input := none
  tool_response := none
  source := none
  subagent_type := some "roz:roz"
  subagent_prompt := some "SESSION_ID=S5\n\n## Summary\nDid stuff"
  subagent_started_at := some 100

/-- C3 (witness): a `Complete` decision recorded at time 50, before the
reviewer started at 100, is blocked. -/
theorem subagent_stop_blocks_iff_outside_window_witness :
    handle_subagent_stop subagentInput (fun id => if id = "S5" then some staleDecisionSession else none) 200 = .block :=
  ((subagent_stop_blocks_iff_outside_window subagentInput
      (fun id => if id = "S5" then some staleDecisionSession else none) 200
      "S5" staleDecisionSession rfl rfl rfl (by decide)).1).mpr
    (Or.inl (by decide))

/-! ## Decide operation (`run` in `src/cli/decide.rs`) -/

/-- Error cases surfaced by the decide operation. -/
inductive RozError where
  | invalidDecision (kind : String)
deriving DecidableEq, Repr

/-- `str::to_uppercase`, char by char (ASCII-faithful; the kinds compared
against `COMPLETE` / `ISSUES` are ASCII). -/
def rustToUpper (s : String) : String :=
  String.mk (s.toList.map Char.toUpper)

/-- `str::to_lowercase`, char by char (ASCII-faithful). -/
def rustToLower (s : String) : String :=
  String.mk (s.toList.map Char.toLower)

/-- Overwrite the first `Pending` outcome from the left of a list (applied to
the reversed attempts list, this is the `iter_mut().rev().find(..)`
mutation). -/
def setFirstPending (dt : String) (bn : Nat) : List ReviewAttempt → List ReviewAttempt
  | [] => []
  | a :: rest =>
    if a.outcome = .pending then { a with outcome := .success dt bn } :: rest
    else a :: setFirstPending dt bn rest

/-- The reverse-scan update of `decide::run`: the last attempt whose outcome
is `Pending` becomes `Success{decision_type, blocks_needed}`. -/
def updateLastPending (dt : String) (bn : Nat) (l : List ReviewAttempt) : List ReviewAttempt :=
  (setFirstPending dt bn l.reverse).reverse

/-- The mutation part of `decide::run` after the decision kind has been
validated: push the prior decision to history, append the `roz_decision`
trace event (the conditional `second_opinions` entry is appended to the
entry list; serde's map is key-sorted but entry order is irrelevant here),
set `gate_approved_at` on COMPLETE, overwrite the last pending attempt, then
replace the decision and `updated_at`. -/
def decide_apply (state : SessionState) (decision_upper : String) (new_decision : Decision)
    (summary : String) (opinions : Option String) (now : Time) (fresh_id : String) :
    SessionState :=
  let payload_entries : List (String × Json) :=
    [("decision", .jstr decision_upper.toList), ("summary", .jstr summary.toList)]
  let payload : Json :=
    match opinions with
    | some ops => .jobj (payload_entries ++ [("second_opinions", .jstr ops.toList)])
    | none => .jobj payload_entries
  let state :=
    { state with
      review := { state.review with
        decision_history := state.review.decision_history ++
          [({ decision := state.review.decision, timestamp := now } : DecisionRecord)] }
      trace := state.trace ++ [(⟨fresh_id, now, .rozDecision, payload⟩ : TraceEvent)] }
  let state :=
    if decision_upper = "COMPLETE" then
      { state with review := { state.review with gate_approved_at := some now } }
    else state
  let state :=
    { state with review := { state.review with
        attempts := updateLastPending (rustToLower decision_upper) state.review.block_count
          state.review.attempts } }
  { state with
    review := { state.review with decision := new_decision }
    updated_at := now }

/-- `decide::run` on a loaded session (store get/put and the printed
confirmation are outside the model; a missing session errors before any of
this logic runs): validate the uppercased kind, then apply the mutation. -/
def decide_run (state : SessionState) (decision summary : String)
    (message opinions : Option String) (now : Time) (fresh_id : String) :
    Except RozError SessionState :=
  let decision_upper := rustToUpper decision
  if decision_upper = "COMPLETE" then
    .ok (decide_apply state decision_upper (.complete summary opinions) summary opinions now
      fresh_id)
  else if decision_upper = "ISSUES" then
    .ok (decide_apply state decision_upper (.issues summary message) summary opinions now
      fresh_id)
  else .error (.invalidDecision decision_upper)

/-! ## C2 — prompt-scope approval -/

/-- Prompt-scope gates with no TTL. -/
def promptScopeGates : GatesConfig :=
  { tools := ["x"], approval_scope := .prompt, approval_ttl_seconds := none }

/-- A session approved at time 7 during a review that started at 5, after
which a prompt arrived at 10. -/
def promptDuringReviewSession : SessionState :=
  { SessionState.new "S2" 0 with
    review :=
      { ReviewState.init with
        decision := .complete "done" none
        gate_approved_at := some 7
        last_prompt_at := some 10
        review_started_at := some 5 } }

/-- C2 (counterexample): with `last_prompt_at = 10 > review_started_at = 5`
and `gate_approved_at = 7`, the code approves (it compares against
`review_started_at = 5`), while the claim's
`effective_prompt_at = max(10, 5) = 10` would deny (`7 > 10` is false). -/
theorem gate_approval_contradicts_max_rule :
    is_gate_approved promptDuringReviewSession promptScopeGates 0 = true ∧
    claimEffectivePromptAt promptDuringReviewSession.review.last_prompt_at
      promptDuringReviewSession.review.review_started_at = some 10 ∧
    ¬ ((7 : Time) > 10) := by
  refine ⟨rfl, rfl, by decide⟩

/-- C2 (amended): under `Prompt` scope with a `Complete` decision, a recorded
and unexpired `gate_approved_at`, the gate is approved iff `gate_approved_at`
exceeds `min(last_prompt_at, review_started_at)` when both are present (the
code substitutes `review_started_at`, the earlier bound, when
`last_prompt_at > review_started_at`), `last_prompt_at` alone when only it is
present, and unconditionally when there is no prior prompt. -/
theorem gate_approval_prompt_scope_uses_earlier_timestamp
    (state : SessionState) (gates : GatesConfig) (now : Time) (ga : Time)
    (su : String) (so : Option String)
    (hc : state.review.decision = .complete su so)
    (ha : state.review.gate_approved_at = some ga)
    (hs : gates.approval_scope = .prompt)
    (hexp : approval_expired gates ga now = false) :
    (is_gate_approved state gates now = true ↔
      match state.review.last_prompt_at, state.review.review_started_at with
      | some p, some r => ga > min p r
      | some p, none => ga > p
      | none, _ => True) := by
  rcases hlp : state.review.last_prompt_at with _ | p
  · rcases hrs : state.review.review_started_at with _ | r <;>
      simp [is_gate_approved, hc, ha, hs, hexp, hlp, hrs]
  · rcases hrs : state.review.review_started_at with _ | r
    · simp [is_gate_approved, hc, ha, hs, hexp, hlp, hrs]
    · simp only [is_gate_approved, hc, ha, hs, hexp, hlp, hrs, if_false, Bool.false_eq_true,
        decide_eq_true_eq]
      by_cases hpr : r < p <;> simp [hpr] <;> intro h
      · exact lt_trans hpr h
      · exact lt_of_le_of_lt (not_lt.mp hpr) h

/-- C2 (witness): the concrete approved-during-review session above is
approved, since `7 > min 10 5`. -/
theorem gate_approval_prompt_scope_uses_earlier_timestamp_witness :
    is_gate_approved promptDuringReviewSession promptScopeGates 0 = true :=
  (gate_approval_prompt_scope_uses_earlier_timestamp promptDuringReviewSession
      promptScopeGates 0 7 "done" none rfl rfl rfl rfl).mpr
    (by decide : (7 : Time) > min (10 : Time) 5)

/-! ## C5 — decide with COMPLETE -/

/-- Decomposition of `setFirstPending` when a pending attempt exists: the
list splits around the first pending entry, which is the only one
modified. -/
theorem setFirstPending_spec (dt : String) (bn : Nat) :
    ∀ l : List ReviewAttempt, (∃ a ∈ l, a.outcome = .pending) →
      ∃ p a s, l = p ++ a :: s ∧ (∀ b ∈ p, b.outcome ≠ .pending) ∧
        a.outcome = .pending ∧
        setFirstPending dt bn l = p ++ { a with outcome := .success dt bn } :: s := by
  intro l
  induction l with
  | nil => rintro ⟨a, ha, _⟩; simp at ha
  | cons c t ih =>
    rintro ⟨a, ha, hpend⟩
    by_cases hc : c.outcome = .pending
    · exact ⟨[], c, t, rfl, by simp, hc, by simp [setFirstPending, hc]⟩
    · have hmem : ∃ a ∈ t, a.outcome = .pending := by
        rcases List.mem_cons.mp ha with h | h
        · subst h; exact absurd hpend hc
        · exact ⟨a, h, hpend⟩
      obtain ⟨p, a', s, hsplit, hnp, hpend', hset⟩ := ih hmem
      refine ⟨c :: p, a', s, by simp [hsplit], ?_, hpend', ?_⟩
      · intro b hb
        rcases List.mem_cons.mp hb with h | h
        · subst h; exact hc
        · exact hnp b h
      · simp [setFirstPending, hc, hset]

/-- Decomposition of `updateLastPending`: the attempts list splits around the
last pending entry (everything after it non-pending), which becomes
`Success` while all other entries are untouched. -/
theorem updateLastPending_spec (dt : String) (bn : Nat) (l : List ReviewAttempt)
    (h : ∃ a ∈ l, a.outcome = .pending) :
    ∃ l₁ a l₂, l = l₁ ++ a :: l₂ ∧ a.outcome = .pending ∧
      (∀ b ∈ l₂, b.outcome ≠ .pending) ∧
      updateLastPending dt bn l = l₁ ++ { a with outcome := .success dt bn } :: l₂ := by
  have hrev : ∃ a ∈ l.reverse, a.outcome = .pending := by simpa using h
  obtain ⟨p, a, s, hsplit, hnp, hpend, hset⟩ := setFirstPending_spec dt bn l.reverse hrev
  refine ⟨s.reverse, a, p.reverse, ?_, hpend, ?_, ?_⟩
  · have := congrArg List.reverse hsplit
    simpa [List.reverse_append] using this
  · intro b hb
    exact hnp b (by simpa using hb)
  · unfold updateLastPending
    rw [hset]
    simp [List.reverse_append]

/-- C5: for every loaded session with at least one pending attempt, a decide
with a kind uppercasing to `COMPLETE` succeeds, sets `gate_approved_at` to
`now`, and overwrites the outcome of the last `Pending` attempt (reverse
scan) to `Success` with decision type `"complete"` and `blocks_needed` equal
to the current block count, leaving all other attempts unchanged. -/
theorem decide_complete_sets_approval_and_last_pending_attempt
    (state : SessionState) (decision summary : String)
    (message opinions : Option String) (now : Time) (fresh_id : String)
    (hu : rustToUpper decision = "COMPLETE")
    (hp : ∃ a ∈ state.review.attempts, a.outcome = .pending) :
    ∃ s', decide_run state decision summary message opinions now fresh_id = .ok s' ∧
      s'.review.gate_approved_at = some now ∧
      ∃ l₁ a l₂, state.review.attempts = l₁ ++ a :: l₂ ∧
        a.outcome = .pending ∧ (∀ b ∈ l₂, b.outcome ≠ .pending) ∧
        s'.review.attempts =
          l₁ ++ { a with outcome := .success "complete" state.review.block_count } :: l₂ := by
  obtain ⟨l₁, a, l₂, hsplit, hpend, hnp, hupd⟩ :=
    updateLastPending_spec "complete" state.review.block_count state.review.attempts hp
  have hrun : decide_run state decision summary message opinions now fresh_id =
      .ok (decide_apply state "COMPLETE" (.complete summary opinions) summary opinions now
        fresh_id) := by
    simp only [decide_run, hu]
    rfl
  exact ⟨decide_apply state "COMPLETE" (.complete summary opinions) summary opinions now
    fresh_id, hrun, rfl, l₁, a, l₂, hsplit, hpend, hnp, hupd⟩

/-- A reviewed session with one pending attempt and two recorded blocks. -/
def pendingAttemptSession : SessionState :=
  { SessionState.new "S6" 0 with
    review :=
      { ReviewState.init with
        enabled := true
        block_count := 2
        attempts := [⟨"default", 0, .pending⟩] } }

/-- C5 (witness): deciding `"Complete"` on the session above approves the
gate at time 5 and turns its pending attempt into
`Success{complete, blocks_needed = 2}`. -/
theorem decide_complete_sets_approval_and_last_pending_attempt_witness :
    ∃ s', decide_run pendingAttemptSession "Complete" "done" none none 5 "d1" = .ok s' ∧
      s'.review.gate_approved_at = some 5 ∧
      ∃ l₁ a l₂, pendingAttemptSession.review.attempts = l₁ ++ a :: l₂ ∧
        a.outcome = .pending ∧ (∀ b ∈ l₂, b.outcome ≠ .pending) ∧
        s'.review.attempts =
          l₁ ++ { a with outcome := AttemptOutcome.success "complete" pendingAttemptSession.review.block_count } :: l₂ :=
  decide_complete_sets_approval_and_last_pending_attempt pendingAttemptSession
    "Complete" "done" none none 5 "d1" (by decide)
    ⟨⟨"default", 0, .pending⟩, by simp [pendingAttemptSession], rfl⟩

/-! ## C4 — trace length versus `max_events` -/

/-- `handle_user_prompt` on an existing session pushes exactly one uncapped
`prompt_received` event when the prompt is `#roz`-prefixed, and none
otherwise. -/
theorem handle_user_prompt_trace_push
    (input : HookInput) (s : SessionState) (now : Time) (fresh_id : String) :
    ((handle_user_prompt input (some s) now fresh_id).2.map fun t => t.trace.length) =
      some (if "#roz".toList.isPrefixOf ((input.prompt.getD "").toList.dropWhile isWsChar)
            then s.trace.length + 1 else s.trace.length) := by
  simp only [handle_user_prompt, Option.map_some]
  split <;> simp

/-- `handle_session_start` on a missing session persists a fresh state with
exactly the one directly pushed `session_start` event. -/
theorem handle_session_start_new_trace
    (input : HookInput) (now : Time) (fresh_id : String) :
    ((handle_session_start input none now fresh_id).2.map fun t => t.trace.length) =
      some 1 := by
  simp [handle_session_start, SessionState.new]

/-- `handle_session_start` on an existing session resumes it untouched. -/
theorem handle_session_start_resume
    (input : HookInput) (s : SessionState) (now : Time) (fresh_id : String) :
    (handle_session_start input (some s) now fresh_id).2 = some s := by
  simp [handle_session_start]

/-- A successful `decide_run` persists exactly one more (uncapped)
`roz_decision` trace event. -/
theorem decide_run_trace_push
    (s : SessionState) (decision summary : String) (message opinions : Option String)
    (now : Time) (fresh_id : String) (out : SessionState)
    (h : decide_run s decision summary message opinions now fresh_id = .ok out) :
    out.trace.length = s.trace.length + 1 := by
  simp only [decide_run] at h
  split_ifs at h
  · injection h with h
    subst h
    simp only [decide_apply]
    split <;> simp
  · injection h with h
    subst h
    simp only [decide_apply]
    split <;> simp

/-- C4 (counterexample): the stop hook pushes its `stop_hook_called` event
directly, without the cap, so with `max_events = 0` a single stop call leaves
a persisted trace of length 1 — the claimed invariant
`trace.len() ≤ max_events` fails after this mutation. -/
theorem stop_trace_push_exceeds_max_events :
    ((handle_stop_with_config (some freshDisabledSession) zeroTraceConfig 0 0 "e3").2.map
        fun t => t.trace.length) = some 1 ∧
    zeroTraceConfig.trace.max_events = 0 ∧
    ¬ (1 ≤ zeroTraceConfig.trace.max_events) := by
  refine ⟨rfl, rfl, by decide⟩

/-- C4 (amended): only appends routed through `add_trace_event` (the
pre-tool-use gate events) maintain `trace.len() ≤ max_events` (for
`max_events ≥ 1`).  The other event-adding mutations push directly with no
cap: the stop hook and a successful decide persist exactly one more event;
user-prompt persists one more event exactly when the prompt is
`#roz`-prefixed; session-start creates a missing session with one event and
leaves an existing session untouched. -/
theorem trace_cap_enforced_only_by_add_trace_event :
    (∀ trace event max_events marker_id now out, 1 ≤ max_events →
        add_trace_event trace event max_events marker_id now = some out →
        out.length ≤ max_events) ∧
    (∀ s config now now_nanos fresh_id,
        ((handle_stop_with_config (some s) config now now_nanos fresh_id).2.map
            fun t => t.trace.length) = some (s.trace.length + 1)) ∧
    (∀ input s now fresh_id,
        ((handle_user_prompt input (some s) now fresh_id).2.map fun t => t.trace.length) =
          some (if "#roz".toList.isPrefixOf
                    ((input.prompt.getD "").toList.dropWhile isWsChar)
                then s.trace.length + 1 else s.trace.length)) ∧
    (∀ input now fresh_id,
        ((handle_session_start input none now fresh_id).2.map fun t => t.trace.length) =
          some 1) ∧
    (∀ input s now fresh_id,
        (handle_session_start input (some s) now fresh_id).2 = some s) ∧
    (∀ s decision summary message opinions now fresh_id out,
        decide_run s decision summary message opinions now fresh_id = .ok out →
        out.trace.length = s.trace.length + 1) :=
  ⟨fun trace event max_events marker_id now out hme h =>
      add_trace_event_length_le trace event max_events marker_id now out hme h,
   fun s config now now_nanos fresh_id =>
      handle_stop_trace_push s config now now_nanos fresh_id,
   fun input s now fresh_id => handle_user_prompt_trace_push input s now fresh_id,
   fun input now fresh_id => handle_session_start_new_trace input now fresh_id,
   fun input s now fresh_id => handle_session_start_resume input s now fresh_id,
   fun s decision summary message opinions now fresh_id out h =>
      decide_run_trace_push s decision summary message opinions now fresh_id out h⟩

/-- A `#roz`-prefixed user prompt for the trace-growth witness. -/
def rozPromptInput : HookInput where
  session_id := "S4"
  cwd := "/tmp"
  prompt := some "#roz fix the bug"
  tool_name := none
  tool_input := none
  tool_response := none
  source := none
  subagent_type := none
  subagent_prompt := none
  subagent_started_at := none

/-- A session-start input for the trace-growth witness. -/
def startInput : HookInput where
  session_id := "S4"
  cwd := "/tmp"
  prompt := none
  tool_name := none
  tool_input := none
  tool_response := none
  source := some "startup"
  subagent_type := none
  subagent_prompt := none
  subagent_started_at := none

/-- C4 (witness): a concrete successful append at cap 1 stays within the
cap; a stop call, a `#roz` prompt, a fresh session-start, and an ISSUES
decide each persist exactly one event on an empty trace, and a resumed
session-start leaves the state untouched. -/
theorem trace_cap_enforced_only_by_add_trace_event_witness :
    [sampleEvent].length ≤ 1 ∧
    ((handle_stop_with_config (some freshDisabledSession) defaultConfig 0 0 "e4").2.map
        fun t => t.trace.length) = some 1 ∧
    ((handle_user_prompt rozPromptInput (some freshDisabledSession) 0 "e5").2.map
        fun t => t.trace.length) = some 1 ∧
    ((handle_session_start startInput none 0 "e6").2.map fun t => t.trace.length) =
      some 1 ∧
    (handle_session_start startInput (some freshDisabledSession) 0 "e6").2 =
      some freshDisabledSession ∧
    ∃ out, decide_run freshDisabledSession "ISSUES" "fix" none none 1 "d2" = .ok out ∧
      out.trace.length = 1 := by
  refine ⟨trace_cap_enforced_only_by_add_trace_event.1 [] sampleEvent 1 "m0" 0 [sampleEvent]
      (by decide) rfl,
    trace_cap_enforced_only_by_add_trace_event.2.1 freshDisabledSession defaultConfig 0 0 "e4",
    trace_cap_enforced_only_by_add_trace_event.2.2.1 rozPromptInput freshDisabledSession 0 "e5",
    trace_cap_enforced_only_by_add_trace_event.2.2.2.1 startInput 0 "e6",
    trace_cap_enforced_only_by_add_trace_event.2.2.2.2.1 startInput freshDisabledSession 0 "e6",
    ⟨_, rfl, trace_cap_enforced_only_by_add_trace_event.2.2.2.2.2 freshDisabledSession
      "ISSUES" "fix" none none 1 "d2" _ rfl⟩⟩

/-! ## C9 — weighted-random template selection -/

/-- Walk lemma: when the roll is at least the running total but below the
running total plus the remaining weight, the walk stops inside the list at
the first entry whose cumulative weight exceeds the roll. -/
theorem weightedWalk_spec (roll : Nat) :
    ∀ (l : List (String × Nat)) (cum : Nat), cum ≤ roll →
      roll < cum + (l.map Prod.snd).sum →
      ∃ pre k w suf, l = pre ++ (k, w) :: suf ∧
        weightedWalk roll cum l = some k ∧
        cum + (pre.map Prod.snd).sum ≤ roll ∧
        roll < cum + (pre.map Prod.snd).sum + w := by
  intro l
  induction l with
  | nil => intro cum hc h; simp at h; omega
  | cons hd t ih =>
    intro cum hc h
    obtain ⟨k, w⟩ := hd
    by_cases hw : roll < cum + w
    · exact ⟨[], k, w, t, rfl, by simp [weightedWalk, hw], by simpa using hc, by simpa using hw⟩
    · have h' : roll < (cum + w) + (t.map Prod.snd).sum := by
        simp only [List.map_cons, List.sum_cons] at h; omega
      obtain ⟨pre, k', w', suf, hdec, hwalk, hlo, hhi⟩ := ih (cum + w) (by omega) h'
      refine ⟨(k, w) :: pre, k', w', suf, by simp [hdec], ?_, ?_, ?_⟩
      · simp only [weightedWalk, if_neg hw]
        exact hwalk
      · simp only [List.map_cons, List.sum_cons]; omega
      · simp only [List.map_cons, List.sum_cons]; omega

/-- A `random` template config whose single weight is zero. -/
def zeroWeightTemplates : TemplateConfig := { active := "random", weights := [("v1", 0)] }

/-- A `random` template config with two weighted entries. -/
def randomTwoTemplates : TemplateConfig := { active := "random", weights := [("a", 2), ("b", 3)] }

/-- C9 (counterexample): with `active = "random"` and a non-empty weights map
summing to zero, selection returns the first key in iteration order (`"v1"`),
not the claimed fixed fallback `"default"`. -/
theorem select_template_zero_sum_returns_first_key :
    select_template zeroWeightTemplates 0 = "v1" ∧ "v1" ≠ "default" :=
  ⟨rfl, by decide⟩

/-- C9 (amended): with `active = "random"` (and weights fitting in `u32`),
selection returns `"default"` when the weights map is empty; when the sum of
weights is zero it returns the first key in iteration order; otherwise it
returns the first key whose running cumulative weight exceeds the draw
`now_nanos % sum`. -/
theorem select_template_random_characterization
    (tc : TemplateConfig) (now_nanos : Nat)
    (ha : tc.active = "random")
    (hsum : (tc.weights.map Prod.snd).sum < 2 ^ 32) :
    (tc.weights = [] → select_template tc now_nanos = "default") ∧
    (∀ k w rest, tc.weights = (k, w) :: rest →
      (tc.weights.map Prod.snd).sum = 0 → select_template tc now_nanos = k) ∧
    (0 < (tc.weights.map Prod.snd).sum →
      ∃ pre k w suf, tc.weights = pre ++ (k, w) :: suf ∧
        select_template tc now_nanos = k ∧
        (pre.map Prod.snd).sum ≤ now_nanos % (tc.weights.map Prod.snd).sum ∧
        now_nanos % (tc.weights.map Prod.snd).sum < (pre.map Prod.snd).sum + w) := by
  refine ⟨?_, ?_, ?_⟩
  · intro hnil
    simp [select_template, weighted_random, ha, hnil]
  · intro k w rest hcons hzero
    simp [select_template, weighted_random, ha, hcons, List.map_cons, List.sum_cons] at hzero ⊢
    omega
  · intro hpos
    have hne : tc.weights ≠ [] := by
      intro hnil; rw [hnil] at hpos; simp at hpos
    have hroll : now_nanos % (tc.weights.map Prod.snd).sum <
        0 + (tc.weights.map Prod.snd).sum := by
      simpa using Nat.mod_lt now_nanos hpos
    obtain ⟨pre, k, w, suf, hdec, hwalk, hlo, hhi⟩ :=
      weightedWalk_spec (now_nanos % (tc.weights.map Prod.snd).sum) tc.weights 0
        (Nat.zero_le _) hroll
    refine ⟨pre, k, w, suf, hdec, ?_, by simpa using hlo, by simpa using hhi⟩
    have h0 : (tc.weights.map Prod.snd).sum ≠ 0 := by omega
    have hsel : select_template tc now_nanos = weighted_random tc.weights now_nanos := by
      simp [select_template, ha]
    rw [hsel]
    simp only [weighted_random]
    rw [if_neg (by simpa [List.isEmpty_iff] using hne), if_neg h0, hwalk]
    rfl

/-- C9 (witness): with weights `a ↦ 2, b ↦ 3` and draw `4 % 5 = 4`, selection
returns `"b"` (the first key whose cumulative weight `5` exceeds `4`). -/
theorem select_template_random_characterization_witness :
    ∃ pre k w suf, randomTwoTemplates.weights = pre ++ (k, w) :: suf ∧
      select_template randomTwoTemplates 4 = k ∧
      (pre.map Prod.snd).sum ≤ 4 % (randomTwoTemplates.weights.map Prod.snd).sum ∧
      4 % (randomTwoTemplates.weights.map Prod.snd).sum < (pre.map Prod.snd).sum + w :=
  (select_template_random_characterization randomTwoTemplates 4 rfl (by decide)).2.2
    (by decide)

/-! ## C7 — bash pipe normalization through the gate -/

/-- The command `echo 'y' | gh issue close 123` (single quotes written via
`Char.ofNat 39`). -/
def pipedCommand : List Char :=
  "echo ".toList ++ [Char.ofNat 39, 'y', Char.ofNat 39] ++ " | gh issue close 123".toList

/-- Gates configured with the single pattern `Bash:gh issue close*`. -/
def bashGateConfig : Config :=
  { defaultConfig with
    review := { gates := { tools := ["Bash:gh issue close*"], approval_scope := .prompt,
                           approval_ttl_seconds := none } } }

/-- The pre-tool-use input carrying the piped Bash command. -/
def pipedBashInput : HookInput where
  session_id := "S7"
  cwd := "/tmp"
  prompt := none
  tool_name := some "Bash"
  tool_input := some (.jobj [("command", .jstr pipedCommand)])
  tool_response := none
  source := none
  subagent_type := none
  subagent_prompt := none
  subagent_started_at := none

/-- C7: normalization takes everything after the last unquoted single pipe,
so the piped command keys as `Bash:gh issue close 123`, which matches
`Bash:gh issue close*`, and on a fresh session the invocation is denied. -/
theorem piped_bash_close_is_denied :
    normalize_bash_command pipedCommand = "gh issue close 123".toList ∧
    format_tool_key pipedBashInput.tool_name pipedBashInput.tool_input =
      "Bash:gh issue close 123".toList ∧
    (handle_pre_tool_use pipedBashInput bashGateConfig none 0 "e7" "m7" (fun _ => "")).map
      Prod.fst = some PermissionDecision.deny := by
  refine ⟨rfl, rfl, by decide⟩

/-! ## C10 — truncation of oversized multi-byte strings -/

/-- A JSON string of 4001 euro signs: 12003 bytes of content, 12005 bytes
serialized — over the 10 KiB threshold. -/
def bigEuroString : Json := .jstr (List.replicate 4001 (Char.ofNat 8364))

/-- `takeBytes` on a run of three-byte characters fails whenever the byte
index is not a multiple of three (and lies within the string). -/
theorem takeBytes_replicate_euro_none :
    ∀ (n m : Nat), m % 3 ≠ 0 → m ≤ 3 * n →
      takeBytes (List.replicate n (Char.ofNat 8364)) m = none := by
  intro n
  induction n with
  | zero =>
    intro m h1 h2
    have hm : m = 0 := by omega
    subst hm
    simp at h1
  | succ k ih =>
    intro m h1 h2
    rcases m with _ | m'
    · simp at h1
    · rw [List.replicate_succ]
      have hw : utf8Width (Char.ofNat 8364) = 3 := by decide
      simp only [takeBytes, hw]
      split
    
      next h3 =>
        rw [ih (m' + 1 - 3) (by omega) (by omega)]
        rfl
      next h3 => rfl

/-- C10: on this value, `from_value` enters the truncation path and
`truncate_json_value` slices the string at byte `min budget 200 = 200`,
which falls inside the 67th three-byte character — `&s[..200]` panics, so
neither function returns; the model reports the panic as `none`. -/
theorem truncated_input_panics_on_multibyte_string :
    serLen bigEuroString = 12005 ∧
    ¬ (serLen bigEuroString ≤ 10 * 1024) ∧
    truncate_json_value bigEuroString (10 * 1024) = none ∧
    TruncatedInput.from_value (fun _ => "") bigEuroString = none := by
  have hesc : jsonEscLen (Char.ofNat 8364) = 3 := by decide
  have hw : utf8Width (Char.ofNat 8364) = 3 := by decide
  have key : ∀ (n : Nat) (c : Char) (f : Char → Nat),
      ((List.replicate n c).map f).sum = n * f c := by
    intro n c f
    rw [List.map_replicate, List.sum_replicate, smul_eq_mul]
  have hser : serLen bigEuroString = 12005 := by
    show 2 + ((List.replicate 4001 (Char.ofNat 8364)).map jsonEscLen).sum = 12005
    rw [key, hesc]
  have hbyte : byteLen (List.replicate 4001 (Char.ofNat 8364)) = 12003 := by
    show ((List.replicate 4001 (Char.ofNat 8364)).map utf8Width).sum = 12003
    rw [key, hw]
  have htrunc : truncate_json_value bigEuroString (10 * 1024) = none := by
    show truncate_json_value (.jstr (List.replicate 4001 (Char.ofNat 8364))) (10 * 1024) = none
    rw [truncate_json_value, hbyte]
    rw [if_pos (by omega)]
    rw [show min (10 * 1024) 200 = 200 from by omega]
    rw [takeBytes_replicate_euro_none 4001 200 (by omega) (by omega)]
  refine ⟨hser, by omega, htrunc, ?_⟩
  show TruncatedInput.from_value (fun _ => "") bigEuroString = none
  rw [TruncatedInput.from_value]
  rw [show serLen bigEuroString = 12005 from hser]
  rw [if_neg (by omega)]
  rw [htrunc]

end Roz
